import Mathlib

/-
Verification of the SSH gateway server in internal/sshd/sshd.go:
the listener lifecycle state machine, the accept loop, graceful shutdown,
the public key authentication callback, the per connection handler with
its deferred cleanup, and the per connection session limiter.

Shallow embedding conventions: the concurrent interleavings of the serve
goroutine, the spawned connection handlers and callers of Shutdown are
modelled as a labelled transition system on an explicit server state; a
run is a list of events folded through an executable step function which
returns none when the event is not enabled in the current state.
-/

/-- Claim source: the four lifecycle values of the `status` field,
`StatusStarting`, `StatusReady`, `StatusOnShutdown`, `StatusClosed`
(sshd.go lines 27 to 32). -/
inductive Status where
  | starting
  | ready
  | onShutdown
  | closed
deriving DecidableEq, Repr

/-- Numeric order of the lifecycle values, matching the iota order of the
Go constants; used to state forward monotonicity. -/
def Status.idx : Status → Nat
  | .starting => 0
  | .ready => 1
  | .onShutdown => 2
  | .closed => 3

/-- Program counter of the ListenAndServe and serve code path
(sshd.go lines 74 to 156): before listen, after listen but before
changeStatus(StatusReady), inside the accept loop, blocked in wg.Wait
after the loop exited, and returned after changeStatus(StatusClosed). -/
inductive ServePC where
  | notStarted
  | bound
  | looping
  | draining
  | done
deriving DecidableEq, Repr

/-- The shared server state touched by the serve loop, Shutdown and the
spawned handlers: the `status` field, whether `s.listener` is non nil,
whether the listener has been closed, the serve program counter and the
`wg` counter of in flight connection handlers. -/
structure ServerState where
  status : Status
  listenerBound : Bool
  listenerClosed : Bool
  pc : ServePC
  inFlight : Nat
deriving DecidableEq, Repr

/-- State of a fresh Server value: status is the zero value
StatusStarting, no listener, no handlers. -/
def initServer : ServerState :=
  { status := .starting, listenerBound := false, listenerClosed := false,
    pc := .notStarted, inFlight := 0 }

/-- Events of the interleaved execution: `listenOk` is a successful
`s.listen()`; `setReady` is the `changeStatus(StatusReady)` opening the
serve loop; `acceptOk` is a successful Accept followed by `wg.Add(1)` and
`go s.handleConn`; `acceptErr` is Accept returning an error, upon which
serve breaks out of the loop when status is OnShutdown and otherwise logs
and continues; `handlerDone` is a spawned handleConn returning and running
its deferred `wg.Done()`; `waitDrained` is `wg.Wait()` returning followed
by `changeStatus(StatusClosed)`; `shutdownCall` is an invocation of
`Shutdown()`. -/
inductive Event where
  | listenOk
  | setReady
  | acceptOk
  | acceptErr
  | handlerDone
  | waitDrained
  | shutdownCall
deriving DecidableEq, Repr

/-- The error message of the Go net package for closing or using an
already closed network object. -/
def errNetClosed : String := "use of closed network connection"

/-- Claim source: `Shutdown()` (sshd.go lines 85 to 93). If the listener
is nil it returns nil untouched; otherwise it sets status to OnShutdown
and returns the result of `s.listener.Close()`. The returned Option
String is the Go error: closing an already closed net.Listener returns a
non nil error (net.ErrClosed), which the model reports when
listenerClosed was already true. -/
def shutdownFn (s : ServerState) : ServerState × Option String :=
  if s.listenerBound = false then (s, none)
  else
    ({ s with status := .onShutdown, listenerClosed := true },
     if s.listenerClosed then some errNetClosed else none)

/-- One interleaving step. Returns none when the event is not enabled:
a successful Accept needs an open listener, `wg.Done` needs a live
handler, `wg.Wait` returns only once the counter is zero. An Accept
error is possible at any time while the loop runs. -/
def stepServer (s : ServerState) : Event → Option ServerState
  | .listenOk =>
      if s.pc = .notStarted then
        some { s with pc := .bound, listenerBound := true }
      else none
  | .setReady =>
      if s.pc = .bound then
        some { s with pc := .looping, status := .ready }
      else none
  | .acceptOk =>
      if s.pc = .looping ∧ s.listenerClosed = false then
        some { s with inFlight := s.inFlight + 1 }
      else none
  | .acceptErr =>
      if s.pc = .looping then
        some (if s.status = .onShutdown then { s with pc := .draining } else s)
      else none
  | .handlerDone =>
      if 0 < s.inFlight then
        some { s with inFlight := s.inFlight - 1 }
      else none
  | .waitDrained =>
      if s.pc = .draining ∧ s.inFlight = 0 then
        some { s with pc := .done, status := .closed }
      else none
  | .shutdownCall => some (shutdownFn s).1

/-- Run a list of events from a state; none when some event is not
enabled at its point in the run. -/
def runServer (s : ServerState) : List Event → Option ServerState
  | [] => some s
  | e :: es =>
      match stepServer s e with
      | some s2 => runServer s2 es
      | none => none

/-- Inductive invariant of every reachable server state: status is still
Starting before the loop opens, the loop is left in wg.Wait only with
status OnShutdown, status Closed implies serve has returned, and serve
returns only with the in flight counter drained to zero. -/
def ServerInv (s : ServerState) : Prop :=
  (s.pc = .notStarted → s.status = .starting ∧ s.listenerBound = false ∧ s.inFlight = 0) ∧
  (s.pc = .bound → (s.status = .starting ∨ s.status = .onShutdown) ∧ s.inFlight = 0) ∧
  (s.pc = .draining → s.status = .onShutdown) ∧
  (s.status = .closed → s.pc = .done) ∧
  (s.pc = .done → s.inFlight = 0)

/-- A run is shutdown timely when every `shutdownCall` event fires in a
state where status is already Ready or OnShutdown: Shutdown is not
invoked before serve marks the server Ready, nor after the drained loop
has marked it Closed. -/
def shutdownTimely (s : ServerState) : List Event → Bool
  | [] => true
  | e :: es =>
      match stepServer s e with
      | none => true
      | some m =>
          (decide (e = Event.shutdownCall → s.status = .ready ∨ s.status = .onShutdown))
            && shutdownTimely m es

/-- Strengthened invariant used for monotonicity under timely shutdowns:
before the loop opens, status is still Starting. -/
def ServerInvT (s : ServerState) : Prop :=
  ServerInv s ∧ ((s.pc = .notStarted ∨ s.pc = .bound) → s.status = .starting)

/-- Deferred calls registered by `handleConn` (sshd.go lines 203 to 238):
`wg.Done()`, `nconn.Close()`, the recover function that logs a caught
panic together with the peer address, and `cancel()` for the per
connection context. -/
inductive DeferAction where
  | wgDone
  | closeConn
  | recoverLog
  | cancelCtx
deriving DecidableEq, Repr

/-- Observable effects of one `handleConn` invocation: whether a panic is
still propagating, how many times `wg.Done` ran, whether the accepted
connection was closed, whether the per connection context was created and
canceled, whether a panic was recovered at the boundary, and the peer
address attached to the panic log line. -/
structure HandlerEffects where
  unwinding : Bool
  wgDoneCount : Nat
  connClosed : Bool
  ctxCreated : Bool
  ctxCanceled : Bool
  recovered : Bool
  loggedAddr : Option String
deriving DecidableEq, Repr

/-- Semantics of one deferred call during unwinding. A recover stops a
propagating panic and logs it with the peer address; when no panic is
propagating, recover returns nil and nothing is logged (sshd.go lines
210 to 214). -/
def runDefer (addr : String) (st : HandlerEffects) : DeferAction → HandlerEffects
  | .wgDone => { st with wgDoneCount := st.wgDoneCount + 1 }
  | .closeConn => { st with connClosed := true }
  | .cancelCtx => { st with ctxCanceled := true }
  | .recoverLog =>
      if st.unwinding then
        { st with unwinding := false, recovered := true, loggedAddr := some addr }
      else st

/-- Run the registered deferred calls in their LIFO execution order. -/
def runDefers (addr : String) (st : HandlerEffects) (ds : List DeferAction) : HandlerEffects :=
  ds.foldl (runDefer addr) st

/-- How the body of `handleConn` terminates: a panic while building the
correlation context at line 216, before `defer cancel()` is registered;
`ssh.NewServerConn` returning an error at line 220; a panic inside the
handshake or `conn.handle`; or normal completion of channel handling. -/
inductive HandleOutcome where
  | earlyFault
  | handshakeFailed
  | sessionFault
  | normal
deriving DecidableEq, Repr

/-- Claim source: `handleConn` (sshd.go lines 203 to 238). The defer
stack is, in registration order, `wg.Done`, `nconn.Close`, the recover
func, and, once the per connection context exists, `cancel`; Go runs
deferred calls in reverse registration order on every exit, normal
return, error return or panic. -/
def handleConnExec (addr : String) (o : HandleOutcome) : HandlerEffects :=
  let st0 : HandlerEffects :=
    { unwinding := decide (o = HandleOutcome.earlyFault ∨ o = HandleOutcome.sessionFault),
      wgDoneCount := 0, connClosed := false,
      ctxCreated := decide (o ≠ HandleOutcome.earlyFault), ctxCanceled := false,
      recovered := false, loggedAddr := none }
  let ds :=
    if o = HandleOutcome.earlyFault then
      [DeferAction.recoverLog, DeferAction.closeConn, DeferAction.wgDone]
    else
      [DeferAction.cancelCtx, DeferAction.recoverLog, DeferAction.closeConn,
       DeferAction.wgDone]
  runDefers addr st0 ds

/-- Claim source: `ssh.KeyAlgoDSA`, the key algorithm name rejected by
the callback (sshd.go line 177). -/
def keyAlgoDSA : String := "ssh-dss"


/-- Error returned by the callback for a claimed user name that does not
match the configured one (sshd.go line 175). -/
def errUnknownUser : String := "unknown user"

/-- Error returned by the callback for a DSA key (sshd.go line 178). -/
def errDSAProhibited : String := "DSA is prohibited"

/-- Fatal NewServer error when no host key loads (sshd.go line 68). -/
def errNoHostKeys : String := "No host keys could be loaded, aborting"

/-- A concrete peer address used by witnesses. -/
def peerA : String := "192.0.2.7:40000"

/-- A second concrete peer address used by witnesses. -/
def peerB : String := "198.51.100.3:2222"

/-- The configured service account name used by witnesses. -/
def gitUser : String := "git"

/-- A non DSA key algorithm name used by witnesses. -/
def keyAlgoED : String := "ssh-ed25519"

/-- A concrete parsed host key used by witnesses. -/
def keyA : String := "a"

/-- A second concrete parsed host key used by witnesses. -/
def keyB : String := "b"

/-- Response of `authorizedKeysClient.GetByKey`: the numeric key Id
(an int64 in Go, exact in this model). -/
structure KeyResponse where
  id : Int
deriving DecidableEq, Repr

/-- Result of one `PublicKeyCallback` invocation: the Extensions map of
the returned ssh.Permissions (none when the callback returned a nil
permissions value), the returned error, and a record of the gateway call
the callback made, as the pair of the context timeout in seconds and the
string argument handed to `GetByKey` (none when no call was made). -/
structure PKResult where
  extensions : Option (List (String × String))
  errMsg : Option String
  gatewayCall : Option (Nat × String)
deriving DecidableEq, Repr

/-- Character of the standard base64 alphabet at a six bit index,
as used by base64.RawStdEncoding. -/
def b64Char (n : Nat) : Char :=
  "ABCDEFGHIJKLMNOPQRSTUVWXYZabcdefghijklmnopqrstuvwxyz0123456789+/".toList.getD n 'A'

/-- base64.RawStdEncoding.EncodeToString: standard alphabet, no padding;
each group of three input bytes yields four characters, a final group of
one byte yields two characters and of two bytes yields three. -/
def base64RawStdEncode : List Nat → List Char
  | [] => []
  | [b1] => [b64Char (b1 / 4), b64Char (b1 % 4 * 16)]
  | [b1, b2] =>
      [b64Char (b1 / 4), b64Char (b1 % 4 * 16 + b2 / 16), b64Char (b2 % 16 * 4)]
  | b1 :: b2 :: b3 :: rest =>
      b64Char (b1 / 4) :: b64Char (b1 % 4 * 16 + b2 / 16) ::
        b64Char (b2 % 16 * 4 + b3 / 64) :: b64Char (b3 % 64) ::
        base64RawStdEncode rest

/-- The timeout, in seconds, of the context under which the callback
calls the gateway: `context.WithTimeout(ctx, 10*time.Second)`
(sshd.go line 180). -/
def pkTimeoutSeconds : Nat := 10

/-- Claim source: the `PublicKeyCallback` closure in `serverConfig`
(sshd.go lines 173 to 193). Inputs: the configured service account name
`s.Config.User`, the gateway `GetByKey` as a function of its string
argument, the claimed user name `conn.User()`, the presented key
algorithm `key.Type()` and the marshaled key bytes `key.Marshal()`. -/
def publicKeyCallback (cfgUser : String) (gw : String → Except String KeyResponse)
    (connUser : String) (keyType : String) (keyMarshal : List Nat) : PKResult :=
  if connUser ≠ cfgUser then
    { extensions := none, errMsg := some errUnknownUser, gatewayCall := none }
  else if keyType = keyAlgoDSA then
    { extensions := none, errMsg := some errDSAProhibited, gatewayCall := none }
  else
    let encoded := String.mk (base64RawStdEncode keyMarshal)
    match gw encoded with
    | .error e =>
        { extensions := none, errMsg := some e,
          gatewayCall := some (pkTimeoutSeconds, encoded) }
    | .ok res =>
        { extensions := some [("key-id", toString res.id)], errMsg := none,
          gatewayCall := some (pkTimeoutSeconds, encoded) }

/-- Outcome of processing one configured host key file in `NewServer`
(sshd.go lines 53 to 66): `os.ReadFile` fails, `ssh.ParsePrivateKey`
fails, or a key is parsed successfully. -/
inductive KeyFileOutcome where
  | readError
  | parseError
  | parsed (key : String)
deriving DecidableEq, Repr

/-- The host key loading loop of `NewServer`: files that fail to read or
parse are logged and skipped, parsed keys are appended in order. -/
def loadHostKeys : List KeyFileOutcome → List String
  | [] => []
  | KeyFileOutcome.readError :: rest => loadHostKeys rest
  | KeyFileOutcome.parseError :: rest => loadHostKeys rest
  | KeyFileOutcome.parsed k :: rest => k :: loadHostKeys rest

/-- The successfully parsed keys of a configured file list, in
configuration order. -/
def parsedKeys (files : List KeyFileOutcome) : List String :=
  files.filterMap fun f =>
    match f with
    | KeyFileOutcome.parsed k => some k
    | _ => none

/-- Claim source: `NewServer` (sshd.go lines 46 to 72). The gateway
client is constructed first and its failure is fatal; then host keys are
loaded with per file skipping; an empty resulting key list is fatal; on
success the server carries exactly the loaded keys. -/
def newServer (clientRes : Except String Unit) (files : List KeyFileOutcome) :
    Except String (List String) :=
  match clientRes with
  | .error e => .error ("failed to initialize GitLab client: " ++ e)
  | .ok _ =>
      let keys := loadHostKeys files
      if keys.isEmpty then .error errNoHostKeys
      else .ok keys

/-- Whether an Except value is a success. -/
def exceptIsOk : Except String (List String) → Bool
  | .ok _ => true
  | .error _ => false

/-- Whether the client construction succeeded. -/
def clientIsOk : Except String Unit → Bool
  | .ok _ => true
  | .error _ => false

/-- Modelled from the spec: the per connection channel multiplexer and
session limiter (`newConnection` and `connection.handle`), whose source
file is not part of this tree; only its caller `handleConn`
(sshd.go lines 227 to 237) is. Spec, section 4.2: a configured limit of
at most zero admits every channel open request unconditionally; otherwise
one unit of the bounded counting resource is acquired non blockingly
before a channel is admitted, a request that cannot be admitted is
rejected immediately rather than queued, and the unit is released
unconditionally when the session handler returns, on every exit path
including recovered panics. Events of one connection: a channel open
request, and the exit of a live session handler, flagged with whether the
handler terminated through a recovered panic. -/
inductive ConnEvent where
  | openChannel
  | sessionExit (fault : Bool)
deriving DecidableEq, Repr

/-- Decision on one channel open request. -/
inductive Decision where
  | accepted
  | denied
deriving DecidableEq, Repr

/-- State of one connection: the configured concurrent session limit
(`Config.Server.ConcurrentSessionsLimit`, an int64) and the number of
currently live sessions. -/
structure ConnState where
  limit : Int
  active : Nat
deriving DecidableEq, Repr

/-- Modelled from the spec: a fresh connection built by `newConnection`
with the configured limit and no live session. -/
def newConnection (limit : Int) : ConnState :=
  { limit := limit, active := 0 }

/-- Modelled from the spec: the admission decision for one channel open
request, taken immediately from the current state: a limit of at most
zero admits unconditionally, otherwise the request is admitted exactly
when a unit of the bounded resource is free. -/
def openDecision (c : ConnState) : Decision :=
  if c.limit ≤ 0 then Decision.accepted
  else if (c.active : Int) < c.limit then Decision.accepted
  else Decision.denied

/-- Modelled from the spec: one connection event. An admitted channel
open acquires a unit; a denied one leaves the state unchanged (the
rejection is signalled back at once, nothing is queued). A session exit
releases its unit unconditionally, whether or not the handler terminated
through a recovered panic; it is enabled only while a session is live. -/
def connStep (c : ConnState) : ConnEvent → Option (ConnState × Option Decision)
  | ConnEvent.openChannel =>
      match openDecision c with
      | Decision.accepted =>
          some ({ c with active := c.active + 1 }, some Decision.accepted)
      | Decision.denied => some (c, some Decision.denied)
  | ConnEvent.sessionExit _ =>
      if 0 < c.active then some ({ c with active := c.active - 1 }, none) else none

/-- Run a list of connection events, collecting the admission decisions
in order. -/
def connRun (c : ConnState) : List ConnEvent → Option (ConnState × List Decision)
  | [] => some (c, [])
  | e :: es =>
      match connStep c e with
      | none => none
      | some (c2, d) =>
          match connRun c2 es with
          | none => none
          | some (c3, ds) => some (c3, d.toList ++ ds)

/-- Number of occurrences of one event in a run, used to match the
`wg.Add(1)` of each accepted connection with the `wg.Done()` of its
handler. -/
def countEvent (e : Event) : List Event → Nat
  | [] => 0
  | x :: xs => (if x = e then 1 else 0) + countEvent e xs

/-- The server state reached after a successful listen: listener bound,
status still Starting. -/
def boundServer : ServerState :=
  { status := .starting, listenerBound := true, listenerClosed := false,
    pc := .bound, inFlight := 0 }

/-- The server state with the accept loop running and status Ready. -/
def readyServer : ServerState :=
  { status := .ready, listenerBound := true, listenerClosed := false,
    pc := .looping, inFlight := 0 }

/-- The state after Shutdown hits the running loop: status OnShutdown,
listener closed, loop still at its accept call. -/
def shutServer : ServerState :=
  { status := .onShutdown, listenerBound := true, listenerClosed := true,
    pc := .looping, inFlight := 0 }

/-- The fully terminated server state: loop exited, barrier drained,
status Closed. -/
def closedServer : ServerState :=
  { status := .closed, listenerBound := true, listenerClosed := true,
    pc := .done, inFlight := 0 }

theorem serverInv_init : ServerInv initServer := by
  simp [ServerInv, initServer]

theorem serverInv_step {s s2 : ServerState} {e : Event}
    (hI : ServerInv s) (h : stepServer s e = some s2) : ServerInv s2 := by
  obtain ⟨h1, h2, h3, h4, h5⟩ := hI
  cases e <;> simp only [stepServer, shutdownFn] at h
  case listenOk =>
    split at h
    · cases h
      rcases h1 (by assumption) with ⟨ha, hb, hc⟩
      refine ⟨by simp, by simp [ha, hc], by simp, ?_, by simp⟩
      intro hcl; simp [ha] at hcl
    · cases h
  case setReady =>
    split at h
    · cases h
      refine ⟨by simp, by simp, by simp, by simp, ?_⟩
      intro hd; simp at hd
    · cases h
  case acceptOk =>
    split at h
    · cases h
      rename_i hc
      refine ⟨?_, ?_, by simpa using h3, ?_, ?_⟩
      · intro hp; simp [hc.1] at hp
      · intro hp; simp [hc.1] at hp
      · intro hcl; have := h4 hcl; simp [hc.1] at this
      · intro hp; simp [hc.1] at hp
    · cases h
  case acceptErr =>
    split at h
    · cases h
      rename_i hc
      split
      · rename_i hsd
        refine ⟨?_, ?_, ?_, ?_, ?_⟩
        · intro hp; simp [hc] at hp
        · intro hp; simp [hc] at hp
        · intro _; simpa using hsd
        · intro hcl; simp [hsd] at hcl
        · intro hp; simp [hc] at hp
      · exact ⟨h1, h2, h3, h4, h5⟩
    · cases h
  case handlerDone =>
    split at h
    · cases h
      rename_i hc
      refine ⟨?_, ?_, by simpa using h3, by simpa using h4, ?_⟩
      · intro hp
        have := (h1 hp).2.2; omega
      · intro hp
        have := (h2 hp).2; omega
      · intro hp
        have := h5 hp; omega
    · cases h
  case waitDrained =>
    split at h
    · cases h
      rename_i hc
      exact ⟨by simp, by simp, by simp, by simp, by simpa using hc.2⟩
    · cases h
  case shutdownCall =>
    split at h
    · cases h
      exact ⟨h1, h2, h3, h4, h5⟩
    · cases h
      rename_i hb
      simp only [Bool.not_eq_false] at hb
      refine ⟨?_, ?_, by simp, ?_, by simpa using h5⟩
      · intro hp
        have := (h1 hp).2.1; simp [hb] at this
      · intro hp
        refine ⟨Or.inr rfl, (h2 hp).2⟩
      · intro hcl; simp at hcl

theorem serverInv_run {s s2 : ServerState} {tr : List Event}
    (hI : ServerInv s) (h : runServer s tr = some s2) : ServerInv s2 := by
  induction tr generalizing s with
  | nil => simp [runServer] at h; cases h; exact hI
  | cons e es ih =>
      simp only [runServer] at h
      cases hs : stepServer s e with
      | none => rw [hs] at h; cases h
      | some m => rw [hs] at h; exact ih (serverInv_step hI hs) h

theorem runServer_append (s : ServerState) (t1 t2 : List Event) :
    runServer s (t1 ++ t2) =
      (runServer s t1).bind (fun m => runServer m t2) := by
  induction t1 generalizing s with
  | nil => simp [runServer]
  | cons e es ih =>
      simp only [runServer, List.cons_append]
      cases stepServer s e with
      | none => simp
      | some m => simpa using ih m

theorem serverInvT_init : ServerInvT initServer :=
  ⟨serverInv_init, fun _ => rfl⟩

theorem status_idx_le_three (st : Status) : st.idx ≤ 3 := by
  cases st <;> simp [Status.idx]

theorem serverInvT_step {s s2 : ServerState} {e : Event}
    (hI : ServerInvT s)
    (ht : e = Event.shutdownCall → s.status = .ready ∨ s.status = .onShutdown)
    (h : stepServer s e = some s2) :
    ServerInvT s2 ∧ s.status.idx ≤ s2.status.idx := by
  obtain ⟨hInv, hT⟩ := hI
  refine ⟨⟨serverInv_step hInv h, ?_⟩, ?_⟩ <;>
    cases e <;> simp only [stepServer, shutdownFn] at h
  case listenOk =>
    split at h
    · cases h
      intro _
      exact hT (Or.inl (by assumption))
    · cases h
  case setReady =>
    split at h
    · cases h; simp
    · cases h
  case acceptOk =>
    split at h
    · cases h
      rename_i hc
      intro hp
      simp [hc.1] at hp
    · cases h
  case acceptErr =>
    split at h
    · cases h
      rename_i hc
      split
      · intro hp; simp at hp
      · intro hp; simp [hc] at hp
    · cases h
  case handlerDone =>
    split at h
    · cases h
      intro hp
      rcases hp with hp | hp
      · have := (hInv.1 hp).2.2; omega
      · have := (hInv.2.1 hp).2; omega
    · cases h
  case waitDrained =>
    split at h
    · cases h
      intro hp; simp at hp
    · cases h
  case shutdownCall =>
    split at h
    · cases h
      exact hT
    · cases h
      rename_i hb
      simp only [Bool.not_eq_false] at hb
      intro hp
      rcases hp with hp | hp
      · have := (hInv.1 hp).2.1; simp [hb] at this
      · have := hT (Or.inr hp)
        rcases ht rfl with hr | hr <;> simp [hr] at this
  case listenOk =>
    split at h
    · cases h; simp
    · cases h
  case setReady =>
    split at h
    · cases h
      have := hT (Or.inr (by assumption))
      simp [this, Status.idx]
    · cases h
  case acceptOk =>
    split at h
    · cases h; simp
    · cases h
  case acceptErr =>
    split at h
    · cases h
      split <;> simp
    · cases h
  case handlerDone =>
    split at h
    · cases h; simp
    · cases h
  case waitDrained =>
    split at h
    · cases h
      simpa [Status.idx] using status_idx_le_three s.status
    · cases h
  case shutdownCall =>
    split at h
    · cases h; simp
    · cases h
      rcases ht rfl with hr | hr <;> simp [hr, Status.idx]

theorem serverInvT_run {s s2 : ServerState} {tr : List Event}
    (hI : ServerInvT s) (ht : shutdownTimely s tr = true)
    (h : runServer s tr = some s2) :
    ServerInvT s2 ∧ s.status.idx ≤ s2.status.idx := by
  induction tr generalizing s with
  | nil => simp [runServer] at h; cases h; exact ⟨hI, le_refl _⟩
  | cons e es ih =>
      simp only [runServer] at h
      simp only [shutdownTimely] at ht
      cases hs : stepServer s e with
      | none => rw [hs] at h; cases h
      | some m =>
          rw [hs] at h
          rw [hs] at ht
          simp only [Bool.and_eq_true, decide_eq_true_eq] at ht
          have hstep := serverInvT_step hI ht.1 hs
          have := ih hstep.1 ht.2 h
          exact ⟨this.1, le_trans hstep.2 this.2⟩

theorem shutdownTimely_append_left {s : ServerState} {t1 t2 : List Event}
    (ht : shutdownTimely s (t1 ++ t2) = true) : shutdownTimely s t1 = true := by
  induction t1 generalizing s with
  | nil => simp [shutdownTimely]
  | cons e es ih =>
      simp only [shutdownTimely, List.cons_append] at ht ⊢
      cases hs : stepServer s e with
      | none => simp
      | some m =>
          rw [hs] at ht
          simp only [Bool.and_eq_true] at ht ⊢
          exact ⟨ht.1, ih ht.2⟩

theorem shutdownTimely_append_right {s m : ServerState} {t1 t2 : List Event}
    (ht : shutdownTimely s (t1 ++ t2) = true)
    (h : runServer s t1 = some m) : shutdownTimely m t2 = true := by
  induction t1 generalizing s with
  | nil => simp [runServer] at h; cases h; simpa using ht
  | cons e es ih =>
      simp only [shutdownTimely, List.cons_append] at ht
      simp only [runServer] at h
      cases hs : stepServer s e with
      | none => rw [hs] at h; cases h
      | some m2 =>
          rw [hs] at h
          rw [hs] at ht
          simp only [Bool.and_eq_true] at ht
          exact ih ht.2 h

theorem stepServer_inFlight {s m : ServerState} {e : Event}
    (h : stepServer s e = some m) :
    m.inFlight + (if e = Event.handlerDone then 1 else 0) =
      s.inFlight + (if e = Event.acceptOk then 1 else 0) := by
  cases e <;> simp only [stepServer, shutdownFn] at h
  case listenOk =>
    split at h
    · cases h; simp
    · cases h
  case setReady =>
    split at h
    · cases h; simp
    · cases h
  case acceptOk =>
    split at h
    · cases h; simp
    · cases h
  case acceptErr =>
    split at h
    · cases h
      split <;> simp
    · cases h
  case handlerDone =>
    split at h
    · cases h
      rename_i hc
      simp only [if_pos rfl]
      simp
      omega
    · cases h
  case waitDrained =>
    split at h
    · cases h; simp
    · cases h
  case shutdownCall =>
    split at h
    · cases h; simp
    · cases h; simp

theorem runServer_inFlight {tr : List Event} {s0 s : ServerState}
    (h : runServer s0 tr = some s) :
    s.inFlight + countEvent Event.handlerDone tr =
      s0.inFlight + countEvent Event.acceptOk tr := by
  induction tr generalizing s0 with
  | nil =>
      simp [runServer] at h
      cases h
      rfl
  | cons e es ih =>
      simp only [runServer] at h
      cases hs : stepServer s0 e with
      | none => rw [hs] at h; cases h
      | some m =>
          rw [hs] at h
          have h1 := ih h
          have h2 := stepServer_inFlight hs
          simp only [countEvent]
          by_cases hD : e = Event.handlerDone <;> by_cases hA : e = Event.acceptOk <;>
            simp [hD, hA] at h2 ⊢ <;> omega

theorem loadHostKeys_eq_parsedKeys (files : List KeyFileOutcome) :
    loadHostKeys files = parsedKeys files := by
  induction files with
  | nil => rfl
  | cons f rest ih =>
      cases f <;> simp [loadHostKeys, parsedKeys, List.filterMap_cons] at ih ⊢ <;>
        exact ih

theorem connStep_facts {c c2 : ConnState} {e : ConnEvent} {d : Option Decision}
    (h : connStep c e = some (c2, d)) :
    c2.limit = c.limit ∧
    (c.limit ≤ 0 → ∀ x ∈ d.toList, x = Decision.accepted) ∧
    (0 < c.limit → (c.active : Int) ≤ c.limit → (c2.active : Int) ≤ c.limit) := by
  cases e
  case openChannel =>
    simp only [connStep] at h
    cases hd : openDecision c <;> rw [hd] at h <;> cases h
    · refine ⟨rfl, by simp, ?_⟩
      intro hpos hle
      simp only [openDecision] at hd
      rw [if_neg (by omega)] at hd
      by_cases hlt : (c.active : Int) < c.limit
      · show ((c.active + 1 : Nat) : Int) ≤ c.limit
        omega
      · rw [if_neg hlt] at hd; cases hd
    · refine ⟨rfl, ?_, fun _ hle => hle⟩
      intro hz
      simp [openDecision, if_pos hz] at hd
  case sessionExit =>
    simp only [connStep] at h
    split at h
    · cases h
      refine ⟨rfl, by simp, ?_⟩
      intro hpos hle
      show ((c.active - 1 : Nat) : Int) ≤ c.limit
      omega
    · cases h

theorem connRun_facts {tr : List ConnEvent} {c0 c : ConnState} {ds : List Decision}
    (h : connRun c0 tr = some (c, ds)) :
    c.limit = c0.limit ∧
    (c0.limit ≤ 0 → ∀ d ∈ ds, d = Decision.accepted) ∧
    (0 < c0.limit → (c0.active : Int) ≤ c0.limit → (c.active : Int) ≤ c0.limit) := by
  induction tr generalizing c0 ds with
  | nil =>
      simp only [connRun, Option.some_inj] at h
      cases h
      exact ⟨rfl, by simp, fun _ hle => hle⟩
  | cons e es ih =>
      simp only [connRun] at h
      cases hs : connStep c0 e with
      | none => rw [hs] at h; cases h
      | some p =>
          obtain ⟨c2, d⟩ := p
          simp only [hs] at h
          cases hr : connRun c2 es with
          | none => simp only [hr] at h; cases h
          | some q =>
              obtain ⟨c3, ds2⟩ := q
              simp only [hr, Option.some_inj, Prod.mk.injEq] at h
              obtain ⟨hc3, hds⟩ := h
              subst hc3
              subst hds
              obtain ⟨sl, sd, sa⟩ := connStep_facts hs
              obtain ⟨rl, rd, ra⟩ := ih hr
              refine ⟨by rw [rl, sl], ?_, ?_⟩
              · intro hz d2 hmem
                rcases List.mem_append.mp hmem with hm | hm
                · exact sd hz d2 hm
                · exact rd (by rw [sl]; exact hz) d2 hm
              · intro hpos hle
                have := sa hpos hle
                have h2 := ra (by rw [sl]; exact hpos) (by rw [sl]; exact this)
                rw [sl] at h2
                exact h2


/-- Claim C2, counterexample: the status field does not only move forward.
A reachable call sequence, with every step concretely exhibited, reaches
status Closed through listen, ready, a Shutdown call, the shutdown accept
error and the drained barrier; one further call to Shutdown then moves
status back from Closed to OnShutdown, since Shutdown sets OnShutdown
unconditionally whenever the listener is non nil (sshd.go line 90). -/
theorem C2_status_can_move_backward :
    (runServer initServer [Event.listenOk, Event.setReady, Event.shutdownCall,
        Event.acceptErr, Event.waitDrained]).map ServerState.status =
      some Status.closed ∧
    (runServer initServer [Event.listenOk, Event.setReady, Event.shutdownCall,
        Event.acceptErr, Event.waitDrained, Event.shutdownCall]).map ServerState.status =
      some Status.onShutdown ∧
    Status.onShutdown.idx < Status.closed.idx := by
  decide

/-- Claim C2 (amended): status only moves forward through Starting, Ready,
OnShutdown, Closed in every run in which each call to Shutdown occurs
while status is Ready or OnShutdown, that is, not before serve has marked
the server Ready and not after the drained loop has marked it Closed.
Without that proviso a Shutdown call racing ahead of changeStatus(Ready),
or issued again after Closed, moves status backward. -/
theorem C2_status_monotone_when_shutdown_timely
    (t1 t2 : List Event) (s1 s2 : ServerState)
    (h1 : runServer initServer t1 = some s1)
    (h2 : runServer s1 t2 = some s2)
    (ht : shutdownTimely initServer (t1 ++ t2) = true) :
    s1.status.idx ≤ s2.status.idx := by
  have hT1 := shutdownTimely_append_left ht
  have hT2 := shutdownTimely_append_right ht h1
  have hr1 := serverInvT_run serverInvT_init hT1 h1
  exact (serverInvT_run hr1.1 hT2 h2).2

/-- Witness for the amended C2 theorem at a concrete timely run. -/
theorem C2_status_monotone_when_shutdown_timely_witness :
    runServer initServer [Event.listenOk, Event.setReady] = some readyServer ∧
    runServer readyServer [Event.shutdownCall] = some shutServer ∧
    shutdownTimely initServer
      ([Event.listenOk, Event.setReady] ++ [Event.shutdownCall]) = true ∧
    readyServer.status.idx ≤ shutServer.status.idx :=
  ⟨by decide, by decide, by decide,
    C2_status_monotone_when_shutdown_timely
      [Event.listenOk, Event.setReady] [Event.shutdownCall] readyServer shutServer
      (by decide) (by decide) (by decide)⟩

/-- Claim C3: in every reachable state of the interleaved execution, if
serve has returned (so ListenAndServe has returned) then the in flight
counter of spawned connection handlers has drained to zero, and whenever
status is Closed the accept loop has exited, serve has returned and the
in flight barrier is at zero: serve returns only after every spawned
connection handler has returned, and Closed is set only after the loop
exit and the drain. -/
theorem C3_drain_before_close (tr : List Event) (s : ServerState)
    (h : runServer initServer tr = some s) :
    (s.pc = ServePC.done → s.inFlight = 0) ∧
    (s.status = Status.closed → s.pc = ServePC.done ∧ s.inFlight = 0) := by
  obtain ⟨h1, h2, h3, h4, h5⟩ := serverInv_run serverInv_init h
  exact ⟨h5, fun hc => ⟨h4 hc, h5 (h4 hc)⟩⟩

/-- Witness for C3 at a concrete run in which Shutdown arrives while one
connection handler is in flight and the loop drains before Closed. -/
theorem C3_drain_before_close_witness :
    runServer initServer [Event.listenOk, Event.setReady, Event.acceptOk,
        Event.shutdownCall, Event.acceptErr, Event.handlerDone, Event.waitDrained] =
      some closedServer ∧
    (closedServer.pc = ServePC.done → closedServer.inFlight = 0) :=
  ⟨by decide,
    (C3_drain_before_close
      [Event.listenOk, Event.setReady, Event.acceptOk, Event.shutdownCall,
       Event.acceptErr, Event.handlerDone, Event.waitDrained]
      closedServer (by decide)).1⟩

/-- Claim C9: from any reachable state, an Accept error step leaves the
accept loop (moves serve to wg.Wait) exactly when status is OnShutdown;
when status is not OnShutdown the state is unchanged, the error having
been logged and the loop continuing, so a single failed accept never
makes the serve loop exit. -/
theorem C9_accept_error_exit (tr : List Event) (s s2 : ServerState)
    (h : runServer initServer tr = some s)
    (hs : stepServer s Event.acceptErr = some s2) :
    s.pc = ServePC.looping ∧
    (s.status = Status.onShutdown → s2 = { s with pc := ServePC.draining }) ∧
    (s.status ≠ Status.onShutdown → s2 = s) ∧
    (s2.pc = ServePC.draining → s2.status = Status.onShutdown) := by
  have hInv := serverInv_step (serverInv_run serverInv_init h) hs
  simp only [stepServer] at hs
  split at hs
  · rename_i hp
    by_cases hsd : s.status = Status.onShutdown
    · rw [if_pos hsd] at hs
      cases hs
      exact ⟨hp, fun _ => rfl, fun hne => absurd hsd hne, fun _ => hsd⟩
    · rw [if_neg hsd] at hs
      cases hs
      refine ⟨hp, fun hx => absurd hx hsd, fun _ => rfl, fun hd => ?_⟩
      simp [hp] at hd
  · cases hs

/-- Witness for C9 at a concrete run: an accept error while status is
Ready leaves the state unchanged and the loop running. -/
theorem C9_accept_error_exit_witness :
    runServer initServer [Event.listenOk, Event.setReady] = some readyServer ∧
    stepServer readyServer Event.acceptErr = some readyServer ∧
    readyServer.pc = ServePC.looping :=
  ⟨by decide, by decide,
    (C9_accept_error_exit [Event.listenOk, Event.setReady] readyServer readyServer
      (by decide) (by decide)).1⟩

/-- Claim C8, counterexample: a second call to Shutdown does not return
the same value as the first. After listen binds the listener, the first
Shutdown returns nil; the second returns the non nil error produced by
closing the already closed net.Listener. -/
theorem C8_second_shutdown_differs :
    runServer initServer [Event.listenOk] = some boundServer ∧
    (shutdownFn boundServer).2 = none ∧
    (shutdownFn (shutdownFn boundServer).1).2 ≠ none := by
  refine ⟨by decide, rfl, ?_⟩
  intro hcon
  exact Option.noConfusion hcon

/-- Claim C8 (amended): Shutdown is a no-op returning nil when the server
never started listening, and a second call leaves the server state
exactly as the first call left it, setting status OnShutdown and the
listener closed; only the returned value differs on the second call,
being the error from closing an already closed listener rather than nil. -/
theorem C8_shutdown_idempotent_state (s : ServerState) :
    (s.listenerBound = false → shutdownFn s = (s, none)) ∧
    (shutdownFn (shutdownFn s).1).1 = (shutdownFn s).1 ∧
    (s.listenerBound = true →
      (shutdownFn s).1.status = Status.onShutdown ∧
        (shutdownFn s).1.listenerClosed = true) := by
  by_cases hb : s.listenerBound = false
  · simp [shutdownFn, hb]
  · simp only [Bool.not_eq_false] at hb
    simp [shutdownFn, hb]

/-- Witness for C8 at the concrete state reached after listen. -/
theorem C8_shutdown_idempotent_state_witness :
    (boundServer.listenerBound = false → shutdownFn boundServer = (boundServer, none)) ∧
    (shutdownFn (shutdownFn boundServer).1).1 = (shutdownFn boundServer).1 ∧
    (boundServer.listenerBound = true →
      (shutdownFn boundServer).1.status = Status.onShutdown ∧
        (shutdownFn boundServer).1.listenerClosed = true) :=
  C8_shutdown_idempotent_state boundServer

/-- Claim C4: a panic raised inside the connection handler, whether
before the per connection context exists or during the handshake and
channel handling, is recovered at the handler boundary, logged with the
peer address, and the accepted connection is closed; the panic never
escapes the handler goroutine, and from any reachable server state with
the loop running and the listener open, a further connection is still
accepted and spawned, so sibling connections keep being served. -/
theorem C4_panic_isolated (addr : String) (o : HandleOutcome)
    (ho : o = HandleOutcome.earlyFault ∨ o = HandleOutcome.sessionFault)
    (tr : List Event) (s : ServerState)
    (_h : runServer initServer tr = some s)
    (hpc : s.pc = ServePC.looping) (hcl : s.listenerClosed = false) :
    (handleConnExec addr o).unwinding = false ∧
    (handleConnExec addr o).recovered = true ∧
    (handleConnExec addr o).loggedAddr = some addr ∧
    (handleConnExec addr o).connClosed = true ∧
    stepServer s Event.acceptOk = some { s with inFlight := s.inFlight + 1 } := by
  rcases ho with ho | ho <;> subst ho <;>
    exact ⟨rfl, rfl, rfl, rfl, by simp [stepServer, hpc, hcl]⟩

/-- Witness for C4: a panic during channel handling on a concrete peer,
with the server concretely in its ready accept loop. -/
theorem C4_panic_isolated_witness :
    (HandleOutcome.sessionFault = HandleOutcome.earlyFault ∨
      HandleOutcome.sessionFault = HandleOutcome.sessionFault) ∧
    runServer initServer [Event.listenOk, Event.setReady] = some readyServer ∧
    readyServer.pc = ServePC.looping ∧
    readyServer.listenerClosed = false ∧
    (handleConnExec peerA HandleOutcome.sessionFault).unwinding = false ∧
    (handleConnExec peerA HandleOutcome.sessionFault).recovered = true ∧
    (handleConnExec peerA HandleOutcome.sessionFault).loggedAddr =
      some peerA ∧
    (handleConnExec peerA HandleOutcome.sessionFault).connClosed = true ∧
    stepServer readyServer Event.acceptOk =
      some { readyServer with inFlight := readyServer.inFlight + 1 } := by
  refine ⟨Or.inr rfl, by decide, rfl, rfl, ?_⟩
  have := C4_panic_isolated peerA HandleOutcome.sessionFault (Or.inr rfl)
    [Event.listenOk, Event.setReady] readyServer (by decide) rfl rfl
  exact ⟨this.1, this.2.1, this.2.2.1, this.2.2.2.1, this.2.2.2.2⟩

/-- Claim C10: on every exit path of the per connection handler, normal
completion, failed handshake, or recovered panic, early or late, the
accepted connection is closed, `wg.Done` runs exactly once, no panic
escapes, and the per connection context, whenever it was created, is
canceled; and along every run of the server the in flight counter equals
the number of `wg.Add(1)` events minus the number of handler completions,
so every wg.Add performed by the accept loop is matched by exactly one
wg.Done. -/
theorem C10_handler_cleanup (addr : String) (o : HandleOutcome)
    (tr : List Event) (s : ServerState)
    (h : runServer initServer tr = some s) :
    (handleConnExec addr o).connClosed = true ∧
    (handleConnExec addr o).wgDoneCount = 1 ∧
    (handleConnExec addr o).unwinding = false ∧
    ((handleConnExec addr o).ctxCreated = true →
      (handleConnExec addr o).ctxCanceled = true) ∧
    s.inFlight + countEvent Event.handlerDone tr = countEvent Event.acceptOk tr := by
  have hacc := runServer_inFlight h
  refine ⟨?_, ?_, ?_, ?_, by simpa [initServer] using hacc⟩ <;>
    cases o <;> simp [handleConnExec, runDefers, runDefer]

/-- Witness for C10: a failed handshake on a concrete peer, after a run
in which one accepted connection has already completed. -/
theorem C10_handler_cleanup_witness :
    runServer initServer [Event.listenOk, Event.setReady, Event.acceptOk,
        Event.handlerDone] = some readyServer ∧
    (handleConnExec peerB HandleOutcome.handshakeFailed).connClosed = true ∧
    (handleConnExec peerB HandleOutcome.handshakeFailed).wgDoneCount = 1 ∧
    (handleConnExec peerB HandleOutcome.handshakeFailed).unwinding = false ∧
    ((handleConnExec peerB HandleOutcome.handshakeFailed).ctxCreated = true →
      (handleConnExec peerB HandleOutcome.handshakeFailed).ctxCanceled = true) ∧
    readyServer.inFlight +
        countEvent Event.handlerDone
          [Event.listenOk, Event.setReady, Event.acceptOk, Event.handlerDone] =
      countEvent Event.acceptOk
        [Event.listenOk, Event.setReady, Event.acceptOk, Event.handlerDone] :=
  ⟨by decide,
    C10_handler_cleanup peerB HandleOutcome.handshakeFailed
      [Event.listenOk, Event.setReady, Event.acceptOk, Event.handlerDone]
      readyServer (by decide)⟩

/-- Claim C1 (modelled from the spec, the multiplexer source being absent
from this tree): over every run of one connection with configured limit
L, if L is at most zero every channel open request is admitted; if L is
positive the number of concurrently live sessions never exceeds L, and a
channel open request arriving while L sessions are live is rejected
immediately with the state unchanged, not queued; and the exit of a live
session handler releases exactly one unit, whether or not the handler
terminated through a recovered panic. -/
theorem C1_session_limiter (L : Int) (tr : List ConnEvent)
    (c : ConnState) (ds : List Decision)
    (h : connRun (newConnection L) tr = some (c, ds)) :
    (L ≤ 0 → ∀ d ∈ ds, d = Decision.accepted) ∧
    (0 < L → (c.active : Int) ≤ L) ∧
    (0 < L → (c.active : Int) = L →
      connStep c ConnEvent.openChannel = some (c, some Decision.denied)) ∧
    (0 < c.active →
      connStep c (ConnEvent.sessionExit true) =
          some ({ c with active := c.active - 1 }, none) ∧
        connStep c (ConnEvent.sessionExit false) =
          some ({ c with active := c.active - 1 }, none)) := by
  obtain ⟨hl, hd, ha⟩ := connRun_facts h
  have hl0 : c.limit = L := by simpa [newConnection] using hl
  refine ⟨?_, ?_, ?_, ?_⟩
  · intro hz
    exact hd (by simpa [newConnection] using hz)
  · intro hpos
    have := ha (by simpa [newConnection] using hpos)
      (by simp only [newConnection]; omega)
    simpa [newConnection] using this
  · intro hpos heq
    have h1 : ¬ c.limit ≤ 0 := by omega
    have h2 : ¬ ((c.active : Int) < c.limit) := by omega
    simp [connStep, openDecision, h1, h2]
  · intro hpos
    exact ⟨by simp [connStep, hpos], by simp [connStep, hpos]⟩

/-- Witness for C1: limit one, two concurrent channel open requests; the
first is admitted, the second denied with the state unchanged. -/
theorem C1_session_limiter_witness :
    connRun (newConnection 1) [ConnEvent.openChannel, ConnEvent.openChannel] =
      some ({ limit := 1, active := 1 }, [Decision.accepted, Decision.denied]) ∧
    ((1 : Int) ≤ 0 →
      ∀ d ∈ [Decision.accepted, Decision.denied], d = Decision.accepted) ∧
    ((0 : Int) < 1 → (({ limit := 1, active := 1 } : ConnState).active : Int) ≤ 1) ∧
    ((0 : Int) < 1 → (({ limit := 1, active := 1 } : ConnState).active : Int) = 1 →
      connStep { limit := 1, active := 1 } ConnEvent.openChannel =
        some ({ limit := 1, active := 1 }, some Decision.denied)) ∧
    (0 < ({ limit := 1, active := 1 } : ConnState).active →
      connStep { limit := 1, active := 1 } (ConnEvent.sessionExit true) =
          some ({ limit := 1, active := 0 }, none) ∧
        connStep { limit := 1, active := 1 } (ConnEvent.sessionExit false) =
          some ({ limit := 1, active := 0 }, none)) :=
  ⟨by decide,
    (C1_session_limiter 1 [ConnEvent.openChannel, ConnEvent.openChannel]
      { limit := 1, active := 1 } [Decision.accepted, Decision.denied] (by decide)).1,
    (C1_session_limiter 1 [ConnEvent.openChannel, ConnEvent.openChannel]
      { limit := 1, active := 1 } [Decision.accepted, Decision.denied] (by decide)).2.1,
    (C1_session_limiter 1 [ConnEvent.openChannel, ConnEvent.openChannel]
      { limit := 1, active := 1 } [Decision.accepted, Decision.denied] (by decide)).2.2.1,
    (C1_session_limiter 1 [ConnEvent.openChannel, ConnEvent.openChannel]
      { limit := 1, active := 1 } [Decision.accepted, Decision.denied] (by decide)).2.2.2⟩

/-- Claim C5: the public key callback rejects, returning an error and a
nil permissions value, without any call to the authorization gateway,
whenever the claimed user name differs from the configured service
account name or the presented key algorithm is DSA. -/
theorem C5_reject_before_gateway (cfgUser connUser keyType : String)
    (gw : String → Except String KeyResponse) (keyMarshal : List Nat)
    (h : connUser ≠ cfgUser ∨ keyType = keyAlgoDSA) :
    (publicKeyCallback cfgUser gw connUser keyType keyMarshal).gatewayCall = none ∧
    (publicKeyCallback cfgUser gw connUser keyType keyMarshal).extensions = none ∧
    (publicKeyCallback cfgUser gw connUser keyType keyMarshal).errMsg.isSome = true := by
  by_cases hu : connUser = cfgUser
  · rcases h with h | h
    · exact absurd hu h
    · simp [publicKeyCallback, hu, h]
  · simp [publicKeyCallback, hu]

/-- Witness for C5: a DSA key presented by the configured user is
rejected with no gateway call. -/
theorem C5_reject_before_gateway_witness :
    (publicKeyCallback gitUser (fun _ => Except.ok { id := 42 }) gitUser keyAlgoDSA
        [0, 1, 2]).gatewayCall = none ∧
    (publicKeyCallback gitUser (fun _ => Except.ok { id := 42 }) gitUser keyAlgoDSA
        [0, 1, 2]).extensions = none ∧
    (publicKeyCallback gitUser (fun _ => Except.ok { id := 42 }) gitUser keyAlgoDSA
        [0, 1, 2]).errMsg.isSome = true :=
  C5_reject_before_gateway gitUser gitUser keyAlgoDSA (fun _ => Except.ok { id := 42 })
    [0, 1, 2] (Or.inr rfl)

/-- Claim C6: whenever the callback reaches the gateway, the claimed user
matching the configured one and the key not being DSA, it calls GetByKey
with the raw std base64 encoding of the marshaled public key under the
ten second timeout; a gateway error makes the callback return nil
permissions together with that error, and a gateway success yields
permissions whose key-id extension is the decimal rendering of the
returned numeric Id. -/
theorem C6_gateway_call_shape (cfgUser keyType : String)
    (gw : String → Except String KeyResponse) (keyMarshal : List Nat)
    (hk : keyType ≠ keyAlgoDSA) :
    (publicKeyCallback cfgUser gw cfgUser keyType keyMarshal).gatewayCall =
      some (pkTimeoutSeconds, String.mk (base64RawStdEncode keyMarshal)) ∧
    pkTimeoutSeconds = 10 ∧
    (match gw (String.mk (base64RawStdEncode keyMarshal)) with
     | Except.error e =>
         (publicKeyCallback cfgUser gw cfgUser keyType keyMarshal).extensions = none ∧
         (publicKeyCallback cfgUser gw cfgUser keyType keyMarshal).errMsg = some e
     | Except.ok res =>
         (publicKeyCallback cfgUser gw cfgUser keyType keyMarshal).errMsg = none ∧
         (publicKeyCallback cfgUser gw cfgUser keyType keyMarshal).extensions =
           some [("key-id", toString res.id)]) := by
  cases hg : gw (String.mk (base64RawStdEncode keyMarshal)) with
  | error e => exact ⟨by simp [publicKeyCallback, hk, hg], rfl,
      by simp [publicKeyCallback, hk, hg]⟩
  | ok res => exact ⟨by simp [publicKeyCallback, hk, hg], rfl,
      by simp [publicKeyCallback, hk, hg]⟩

/-- Witness for C6: an Ed25519 key from the configured user, with a
gateway returning Id seven for the encoded key AAEC. -/
theorem C6_gateway_call_shape_witness :
    (publicKeyCallback gitUser (fun _ => Except.ok { id := 7 }) gitUser keyAlgoED
        [0, 1, 2]).gatewayCall =
      some (pkTimeoutSeconds, String.mk (base64RawStdEncode [0, 1, 2])) ∧
    pkTimeoutSeconds = 10 ∧
    (match (fun _ => Except.ok { id := 7 } : String → Except String KeyResponse)
        (String.mk (base64RawStdEncode [0, 1, 2])) with
     | Except.error e =>
         (publicKeyCallback gitUser (fun _ => Except.ok { id := 7 }) gitUser keyAlgoED
             [0, 1, 2]).extensions = none ∧
         (publicKeyCallback gitUser (fun _ => Except.ok { id := 7 }) gitUser keyAlgoED
             [0, 1, 2]).errMsg = some e
     | Except.ok res =>
         (publicKeyCallback gitUser (fun _ => Except.ok { id := 7 }) gitUser keyAlgoED
             [0, 1, 2]).errMsg = none ∧
         (publicKeyCallback gitUser (fun _ => Except.ok { id := 7 }) gitUser keyAlgoED
             [0, 1, 2]).extensions = some [("key-id", toString res.id)]) :=
  C6_gateway_call_shape gitUser keyAlgoED (fun _ => Except.ok { id := 7 })
    [0, 1, 2] (by decide)

/-- Claim C7: NewServer fails exactly when the gateway client
construction fails or no configured host key file both reads and parses;
an individual read or parse failure is skipped and not fatal; on success
the host key list is precisely the successfully parsed keys in
configuration order. -/
theorem C7_newServer_errors (clientRes : Except String Unit)
    (files : List KeyFileOutcome) :
    (exceptIsOk (newServer clientRes files) = true ↔
      clientIsOk clientRes = true ∧ parsedKeys files ≠ []) ∧
    (exceptIsOk (newServer clientRes files) = true →
      newServer clientRes files = Except.ok (parsedKeys files)) ∧
    newServer clientRes (KeyFileOutcome.readError :: files) =
      newServer clientRes files ∧
    newServer clientRes (KeyFileOutcome.parseError :: files) =
      newServer clientRes files := by
  cases clientRes with
  | error e => simp [newServer, exceptIsOk, clientIsOk, loadHostKeys]
  | ok u =>
      have hL := loadHostKeys_eq_parsedKeys files
      by_cases he : parsedKeys files = []
      · simp [newServer, exceptIsOk, clientIsOk, loadHostKeys, hL, he]
      · simp [newServer, exceptIsOk, clientIsOk, loadHostKeys, hL, he]

/-- Witness for C7: a successful client and a file list mixing a read
failure, a parse failure and two parsed keys. -/
theorem C7_newServer_errors_witness :
    (exceptIsOk (newServer (Except.ok ())
        [KeyFileOutcome.readError, KeyFileOutcome.parsed keyA,
         KeyFileOutcome.parseError, KeyFileOutcome.parsed keyB]) = true ↔
      clientIsOk (Except.ok ()) = true ∧
        parsedKeys [KeyFileOutcome.readError, KeyFileOutcome.parsed keyA,
          KeyFileOutcome.parseError, KeyFileOutcome.parsed keyB] ≠ []) ∧
    (exceptIsOk (newServer (Except.ok ())
        [KeyFileOutcome.readError, KeyFileOutcome.parsed keyA,
         KeyFileOutcome.parseError, KeyFileOutcome.parsed keyB]) = true →
      newServer (Except.ok ())
          [KeyFileOutcome.readError, KeyFileOutcome.parsed keyA,
           KeyFileOutcome.parseError, KeyFileOutcome.parsed keyB] =
        Except.ok (parsedKeys [KeyFileOutcome.readError, KeyFileOutcome.parsed keyA,
          KeyFileOutcome.parseError, KeyFileOutcome.parsed keyB])) ∧
    newServer (Except.ok ()) (KeyFileOutcome.readError ::
        [KeyFileOutcome.readError, KeyFileOutcome.parsed keyA,
         KeyFileOutcome.parseError, KeyFileOutcome.parsed keyB]) =
      newServer (Except.ok ())
        [KeyFileOutcome.readError, KeyFileOutcome.parsed keyA,
         KeyFileOutcome.parseError, KeyFileOutcome.parsed keyB] ∧
    newServer (Except.ok ()) (KeyFileOutcome.parseError ::
        [KeyFileOutcome.readError, KeyFileOutcome.parsed keyA,
         KeyFileOutcome.parseError, KeyFileOutcome.parsed keyB]) =
      newServer (Except.ok ())
        [KeyFileOutcome.readError, KeyFileOutcome.parsed keyA,
         KeyFileOutcome.parseError, KeyFileOutcome.parsed keyB] :=
  C7_newServer_errors (Except.ok ())
    [KeyFileOutcome.readError, KeyFileOutcome.parsed keyA,
     KeyFileOutcome.parseError, KeyFileOutcome.parsed keyB]
